import Mathlib

/-!
Shallow embedding of the SecretSanta repository (SecretSanta.py,
RandomSecretSanta.py, test_SecretSanta.py) and verification of the
specification's claims about it.

Modelling conventions:
* participants are strings; a family is a Python list of names; the generated
  assignment is the Python list of `[santa, receiver]` pairs;
* the `previousSecretSanta` dict is an association list built exactly the way
  `getSecretSantasFromPreviousYears` builds the dict;
* `random.choice(availableReceivers)` is modelled by an oracle
  `stream : Nat → Nat`: the k-th call to `choice` on a list `l` returns
  `l[stream k % l.length]`.  Quantifying over all streams covers every
  sequence of random choices;
* Python's `list(set(otherFamilies) - set(used))` is modelled as
  `otherFamilies.dedup.filter (· ∉ used)` (same members, duplicate-free,
  a fixed order standing for the unspecified set order);
* `list.remove` is `List.erase` (first occurrence);
* a file that may be absent on disk is an `Option`;
* raising the exhaustion `Exception` is the `.error .maxTriesReached` value
  of `Except`.
-/

namespace SecretSanta

abbrev Person := String

abbrev Family := List Person

/-- The output format of `randomizeSecretSanta`:
`[["santa_1","receiver_1"],...]`, pairs of (giver, receiver). -/
abbrev Assignment := List (Person × Person)

/-- The `previousSecretSanta` dict of `SecretSanta.py`: giver ↦ list of the
receivers that giver had in the loaded previous years. -/
abbrev History := List (Person × List Person)

/-- Dict lookup: `previousSecretSanta[member]` guarded by
`member in previousSecretSanta`. -/
def histFind : History → Person → Option (List Person)
  | [], _ => none
  | e :: rest, p => if e.1 = p then some e.2 else histFind rest p

/-- One step of the dict-building loop in `getSecretSantasFromPreviousYears`:
`previousSecretSanta[pair[0]] += [pair[1]]` if the key is present, else
`previousSecretSanta[pair[0]] = [pair[1]]`. -/
def histAdd : History → Person → Person → History
  | [], g, r => [(g, [r])]
  | e :: rest, g, r =>
      if e.1 = g then (e.1, e.2 ++ [r]) :: rest else e :: histAdd rest g r

/-- `SecretSanta.py::getSecretSantasFromPreviousYears`: merge the pair lists
of every previous save file that exists (an absent file is `none` and is
skipped) into one dict from giver to all previous receivers. -/
def getSecretSantasFromPreviousYears
    (previousSavefiles : List (Option Assignment)) : History :=
  previousSavefiles.foldl
    (fun h file =>
      match file with
      | none => h
      | some secretSantas =>
          secretSantas.foldl (fun h pair => histAdd h pair.1 pair.2) h)
    []

/-- The `availableReceivers` computation for one member inside
`randomizeSecretSanta`:
`list(set(otherFamilies) - set([pair[1] for pair in secretSanta]))`, then, if
the `previousSecretSanta` dict is non-empty and has the member as key, the
member's previous receivers are removed one by one (`list.remove`, guarded by
a membership test). -/
def availableFor (previousSecretSanta : History) (otherFamilies : List Person)
    (usedReceivers : List Person) (member : Person) : List Person :=
  let availableReceivers :=
    otherFamilies.dedup.filter (fun x => decide (x ∉ usedReceivers))
  if previousSecretSanta = [] then availableReceivers
  else
    match histFind previousSecretSanta member with
    | none => availableReceivers
    | some previousReceivers =>
        previousReceivers.foldl
          (fun av r => if r ∈ av then av.erase r else av)
          availableReceivers

/-- The inner `for member in family` loop of `randomizeSecretSanta`.
Returns `(completed?, secretSanta, k)` where `completed? = false` means the
loop hit an empty `availableReceivers` and broke out (dead end), and `k` is
the position in the random-choice stream. -/
def assignMembers (previousSecretSanta : History) (stream : Nat → Nat)
    (otherFamilies : List Person) :
    List Person → Assignment → Nat → Bool × Assignment × Nat
  | [], secretSanta, k => (true, secretSanta, k)
  | member :: rest, secretSanta, k =>
      let availableReceivers :=
        availableFor previousSecretSanta otherFamilies
          (secretSanta.map Prod.snd) member
      if availableReceivers.length = 0 then
        (false, secretSanta, k)
      else
        let receiver :=
          availableReceivers.getD (stream k % availableReceivers.length) ""
        assignMembers previousSecretSanta stream otherFamilies rest
          (secretSanta ++ [(member, receiver)]) (k + 1)

/-- The outer `for family in families` loop of `randomizeSecretSanta`.
`otherFamilies` is `families.copy()` with the first occurrence of the current
family removed, flattened.  A dead end in the member loop breaks out of this
loop too (`for ... else ... break`). -/
def assignFamilies (families : List Family) (previousSecretSanta : History)
    (stream : Nat → Nat) :
    List Family → Assignment → Nat → Bool × Assignment × Nat
  | [], secretSanta, k => (true, secretSanta, k)
  | family :: rest, secretSanta, k =>
      let otherFamilies := (families.erase family).flatten
      match assignMembers previousSecretSanta stream otherFamilies family
          secretSanta k with
      | (true, secretSanta', k') =>
          assignFamilies families previousSecretSanta stream rest
            secretSanta' k'
      | (false, secretSanta', k') => (false, secretSanta', k')

/-- The `while not randomizationSuccessful and tries < 10` loop.
`fuel` is `10 - tries`; every iteration resets `secretSanta` to `[]`, runs one
full attempt and increments `tries`.  After an attempt the
`randomizationSuccessful` flag is true exactly when the attempt completed
without a dead end and assigned at least one member (the flag is only set to
true when a member actually receives a receiver, and set to false at a dead
end; it is never reset at the top of the loop body).
Returns `(randomizationSuccessful, secretSanta, tries, k)`. -/
def whileLoop (families : List Family) (previousSecretSanta : History)
    (stream : Nat → Nat) :
    Nat → Nat → Nat → Assignment → Bool × Assignment × Nat × Nat
  | 0, tries, k, secretSanta => (false, secretSanta, tries, k)
  | fuel + 1, tries, k, _ =>
      match assignFamilies families previousSecretSanta stream families
          [] k with
      | (completed, secretSanta, k') =>
          if completed && !secretSanta.isEmpty then
            (true, secretSanta, tries + 1, k')
          else
            whileLoop families previousSecretSanta stream fuel (tries + 1) k'
              secretSanta

/-- The exception raised by `randomizeSecretSanta`:
`Exception("randomizeSecretSanta", "Randomization failed. The maximum number
of tries was reached")`. -/
inductive SantaException where
  | maxTriesReached
deriving DecidableEq

/-- `SecretSanta.py::randomizeSecretSanta` (the Matcher's `generate`): run the
retry loop (at most 10 attempts, `tries` starting at 0), then raise the
exception iff `tries == 10`, else return `secretSanta`. -/
def randomizeSecretSanta (families : List Family)
    (previousSecretSanta : History) (stream : Nat → Nat) :
    Except SantaException Assignment :=
  match whileLoop families previousSecretSanta stream 10 0 0 [] with
  | (_, secretSanta, tries, _) =>
      if tries = 10 then .error .maxTriesReached else .ok secretSanta

/-- One recorded unittest failure: either the index of the first failing
`assertEqual` in a test that asserts on aggregates, or the first pair on which
a per-pair assertion failed (an `assert*` failure raises `AssertionError`,
which aborts the test method; `unittest` records one failure per method). -/
inductive TestFailure where
  | failedAssert (idx : Nat)
  | badPair (pair : Person × Person)
deriving DecidableEq

/-- `test_SecretSanta.py::test_all_names_in_list`: four `assertEqual`s in
order; `len(set(l))` is `l.dedup.length`.  The method stops at its first
failing assertion. -/
def test_all_names_in_list (secretSanta : Assignment)
    (families : List Family) : Option TestFailure :=
  let allPeople := families.flatten
  let secretSantas := secretSanta.map Prod.fst
  let receivers := secretSanta.map Prod.snd
  if allPeople.length ≠ secretSantas.length then some (.failedAssert 0)
  else if allPeople.length ≠ receivers.length then some (.failedAssert 1)
  else if allPeople.length ≠ (allPeople ++ secretSantas).dedup.length then
    some (.failedAssert 2)
  else if allPeople.length ≠ (allPeople ++ receivers).dedup.length then
    some (.failedAssert 3)
  else none

/-- `test_SecretSanta.py::test_no_duplicates`: two `assertEqual`s comparing
the number of participants with the deduplicated giver and receiver counts. -/
def test_no_duplicates (secretSanta : Assignment)
    (families : List Family) : Option TestFailure :=
  let allPeople := families.flatten
  if allPeople.length ≠ (secretSanta.map Prod.fst).dedup.length then
    some (.failedAssert 0)
  else if allPeople.length ≠ (secretSanta.map Prod.snd).dedup.length then
    some (.failedAssert 1)
  else none

/-- `test_SecretSanta.py::test_secretSanta_and_receiver_different`:
`assertEqual(len(pair), len(set(pair)))` per pair fails exactly when the two
entries of the pair coincide; the first failing pair aborts the method. -/
def test_secretSanta_and_receiver_different (secretSanta : Assignment) :
    Option TestFailure :=
  (secretSanta.find? (fun pair => pair.1 == pair.2)).map .badPair

/-- `test_SecretSanta.py::test_secretSanta_and_receiver_not_family`: for each
pair, the first family containing the giver (then `break`) must not contain
the receiver; the first failing pair aborts the method. -/
def test_secretSanta_and_receiver_not_family (secretSanta : Assignment)
    (families : List Family) : Option TestFailure :=
  (secretSanta.find? (fun pair =>
      match families.find? (fun family => family.contains pair.1) with
      | none => false
      | some family => family.contains pair.2)).map .badPair

/-- `test_SecretSanta.py::test_not_same_receiver_as_previous_year`: if the
single previous year's file is absent, the test returns immediately (skip);
otherwise, for each pair, the first previous pair with the same giver (then
`break`) must have a different receiver. -/
def test_not_same_receiver_as_previous_year (secretSanta : Assignment)
    (previousFile : Option Assignment) : Option TestFailure :=
  match previousFile with
  | none => none
  | some previousSecretSanta =>
      (secretSanta.find? (fun pair =>
          match previousSecretSanta.find?
              (fun prevPair => prevPair.1 == pair.1) with
          | none => false
          | some prevPair => prevPair.2 == pair.2)).map .badPair

/-- `test_SecretSanta.py::test_not_same_receiver_as_any_of_four_previous_year`:
builds the merged previous-years dict, then asserts, for each pair whose giver
is a key, `pair[0] not in previousSecretSanta[pair[0]]` — the code tests the
giver (`pair[0]`), not the receiver, against the giver's previous
receivers. -/
def test_not_same_receiver_as_any_of_four_previous_year
    (secretSanta : Assignment) (previousFiles : List (Option Assignment)) :
    Option TestFailure :=
  let previousSecretSanta := getSecretSantasFromPreviousYears previousFiles
  (secretSanta.find? (fun pair =>
      match histFind previousSecretSanta pair.1 with
      | none => false
      | some receivers => receivers.contains pair.1)).map .badPair

/-- `SecretSanta.py::runUnitTestOnSavedFile` (the Verifier): discover and run
the test methods of `test_SecretSanta.py` (unittest runs them alphabetically,
each method independently), collect one entry per failed method, and report
success iff no method failed.  The saved current-year file is `secretSanta`,
the family data is `families`, and `previousFiles` are the previous years'
save files, year-1 first, an absent file being `none`. -/
def runUnitTestOnSavedFile (secretSanta : Assignment) (families : List Family)
    (previousFiles : List (Option Assignment)) :
    Bool × List (String × TestFailure) :=
  let results : List (String × Option TestFailure) :=
    [("test_all_names_in_list", test_all_names_in_list secretSanta families),
     ("test_no_duplicates", test_no_duplicates secretSanta families),
     ("test_not_same_receiver_as_any_of_four_previous_year",
       test_not_same_receiver_as_any_of_four_previous_year secretSanta
         previousFiles),
     ("test_not_same_receiver_as_previous_year",
       test_not_same_receiver_as_previous_year secretSanta
         (previousFiles.getD 0 none)),
     ("test_secretSanta_and_receiver_different",
       test_secretSanta_and_receiver_different secretSanta),
     ("test_secretSanta_and_receiver_not_family",
       test_secretSanta_and_receiver_not_family secretSanta families)]
  let failures := results.filterMap (fun r => r.2.map (fun v => (r.1, v)))
  (failures.isEmpty, failures)

/-!
State-threaded variant of `randomizeSecretSanta`, for the frame claim.
The heap objects reachable from the function's arguments — the `families`
list-of-lists and the `previousSecretSanta` dict — form the `PyState`.  Every
Python statement of the function either reads the state, or allocates/updates
a local (`families.copy()` allocates a fresh list; `.remove` and `.append` in
the body act on locals `otherFamilies`, `availableReceivers`, `secretSanta`),
so each translated operation below threads the state explicitly and the state
is only ever read.
-/

structure PyState where
  families : List Family
  previousSecretSanta : History

/-- State-threaded inner member loop (reads
`st.previousSecretSanta`; mutates only the locals). -/
def assignMembersSt (stream : Nat → Nat) (otherFamilies : List Person) :
    PyState → List Person → Assignment → Nat →
      PyState × Bool × Assignment × Nat
  | st, [], secretSanta, k => (st, true, secretSanta, k)
  | st, member :: rest, secretSanta, k =>
      let availableReceivers :=
        availableFor st.previousSecretSanta otherFamilies
          (secretSanta.map Prod.snd) member
      if availableReceivers.length = 0 then (st, false, secretSanta, k)
      else
        let receiver :=
          availableReceivers.getD (stream k % availableReceivers.length) ""
        assignMembersSt stream otherFamilies st rest
          (secretSanta ++ [(member, receiver)]) (k + 1)

/-- State-threaded outer family loop (reads `st.families` to build the local
copy `otherFamilies`; `.remove` acts on the copy). -/
def assignFamiliesSt (stream : Nat → Nat) :
    PyState → List Family → Assignment → Nat →
      PyState × Bool × Assignment × Nat
  | st, [], secretSanta, k => (st, true, secretSanta, k)
  | st, family :: rest, secretSanta, k =>
      let otherFamilies := (st.families.erase family).flatten
      match assignMembersSt stream otherFamilies st family secretSanta k with
      | (st', true, secretSanta', k') =>
          assignFamiliesSt stream st' rest secretSanta' k'
      | (st', false, secretSanta', k') => (st', false, secretSanta', k')

/-- State-threaded retry loop; each iteration re-reads `st.families`. -/
def whileLoopSt (stream : Nat → Nat) :
    PyState → Nat → Nat → Nat → Assignment →
      PyState × Bool × Assignment × Nat × Nat
  | st, 0, tries, k, secretSanta => (st, false, secretSanta, tries, k)
  | st, fuel + 1, tries, k, _ =>
      match assignFamiliesSt stream st st.families [] k with
      | (st', completed, secretSanta, k') =>
          if completed && !secretSanta.isEmpty then
            (st', true, secretSanta, tries + 1, k')
          else
            whileLoopSt stream st' fuel (tries + 1) k' secretSanta

/-- State-threaded `randomizeSecretSanta`: returns the final heap state
together with the result. -/
def randomizeSecretSantaSt (st : PyState) (stream : Nat → Nat) :
    PyState × Except SantaException Assignment :=
  match whileLoopSt stream st 10 0 0 [] with
  | (st', _, secretSanta, tries, _) =>
      (st', if tries = 10 then .error .maxTriesReached else .ok secretSanta)

end SecretSanta

namespace SecretSanta

-- quick sanity checks of the embedding on concrete inputs
example :
    randomizeSecretSanta [["A"], ["B"], ["C"]] []
      (fun k => if k = 0 then 1 else 0) =
    .ok [("A", "C"), ("B", "A"), ("C", "B")] := by rfl

example :
    randomizeSecretSanta [["A", "B"]] [] (fun _ => 0) =
    .error .maxTriesReached := by rfl

/-! ### Basic lemmas about the candidate-pool computation -/

theorem mem_foldl_erase {prevs : List Person} :
    ∀ {av : List Person}, av.Nodup → ∀ {x : Person},
      x ∈ prevs.foldl (fun av r => if r ∈ av then av.erase r else av) av →
      x ∈ av ∧ x ∉ prevs := by
  induction prevs with
  | nil => intro av _ x hx; exact ⟨hx, List.not_mem_nil x⟩
  | cons r rest ih =>
      intro av hnd x hx
      simp only [List.foldl_cons] at hx
      by_cases h : r ∈ av
      · rw [if_pos h] at hx
        obtain ⟨hx1, hxrest⟩ := ih (hnd.erase r) hx
        obtain ⟨hxr, hxav⟩ := (hnd.mem_erase_iff).mp hx1
        exact ⟨hxav, by simp [hxr, hxrest]⟩
      · rw [if_neg h] at hx
        obtain ⟨hx1, hxrest⟩ := ih hnd hx
        have hxr : x ≠ r := fun he => h (he ▸ hx1)
        exact ⟨hx1, by simp [hxr, hxrest]⟩

theorem mem_availableFor {hist : History} {otherFams used : List Person}
    {member x : Person}
    (hx : x ∈ availableFor hist otherFams used member) :
    x ∈ otherFams ∧ x ∉ used ∧
      ∀ prevs, histFind hist member = some prevs → x ∉ prevs := by
  unfold availableFor at hx
  have hbase : ∀ {y : Person},
      y ∈ otherFams.dedup.filter (fun z => decide (z ∉ used)) →
      y ∈ otherFams ∧ y ∉ used := by
    intro y hy
    obtain ⟨hy1, hy2⟩ := List.mem_filter.mp hy
    exact ⟨List.mem_dedup.mp hy1, by simpa using hy2⟩
  have hnd : (otherFams.dedup.filter (fun z => decide (z ∉ used))).Nodup :=
    (List.nodup_dedup otherFams).filter _
  by_cases hh : hist = []
  · rw [if_pos hh] at hx
    obtain ⟨h1, h2⟩ := hbase hx
    refine ⟨h1, h2, ?_⟩
    intro prevs hfind
    rw [hh] at hfind
    simp [histFind] at hfind
  · rw [if_neg hh] at hx
    rcases hfind : histFind hist member with _ | prevs
    · rw [hfind] at hx
      obtain ⟨h1, h2⟩ := hbase hx
      refine ⟨h1, h2, ?_⟩
      intro prevs' hfind'
      cases hfind'
    · rw [hfind] at hx
      obtain ⟨hmem, hnotprev⟩ := mem_foldl_erase hnd hx
      obtain ⟨h1, h2⟩ := hbase hmem
      refine ⟨h1, h2, ?_⟩
      intro prevs' hfind'
      cases hfind'
      exact hnotprev

theorem getD_mem {l : List Person} (h : ¬ l.length = 0) (n : Nat) :
    l.getD (n % l.length) "" ∈ l := by
  have hlt : n % l.length < l.length := Nat.mod_lt _ (Nat.pos_of_ne_zero h)
  rw [List.getD_eq_getElem?_getD, List.getElem?_eq_getElem hlt]
  simp only [Option.getD_some]
  exact List.getElem_mem hlt

/-! ### Soundness of one attempt -/

theorem assignMembers_spec {hist : History} {stream : Nat → Nat}
    {otherFams : List Person} :
    ∀ (mems : List Person) (acc : Assignment) (k : Nat) {acc' : Assignment}
      {k' : Nat},
      assignMembers hist stream otherFams mems acc k = (true, acc', k') →
      acc'.map Prod.fst = acc.map Prod.fst ++ mems ∧
      ((acc.map Prod.snd).Nodup → (acc'.map Prod.snd).Nodup) ∧
      ∀ p ∈ acc', p ∈ acc ∨
        (p.1 ∈ mems ∧ p.2 ∈ otherFams ∧
          ∀ prevs, histFind hist p.1 = some prevs → p.2 ∉ prevs) := by
  intro mems
  induction mems with
  | nil =>
      intro acc k acc' k' h
      simp only [assignMembers, Prod.mk.injEq, true_and] at h
      obtain ⟨h1, h2⟩ := h
      subst h1
      exact ⟨by simp, fun hnd => hnd, fun p hp => Or.inl hp⟩
  | cons m rest ih =>
      intro acc k acc' k' h
      simp only [assignMembers] at h
      by_cases hlen :
          (availableFor hist otherFams (acc.map Prod.snd) m).length = 0
      · rw [if_pos hlen] at h
        cases h
      · rw [if_neg hlen] at h
        have hrmem :
            (availableFor hist otherFams (acc.map Prod.snd) m).getD
              (stream k %
                (availableFor hist otherFams (acc.map Prod.snd) m).length)
              "" ∈ availableFor hist otherFams (acc.map Prod.snd) m :=
          getD_mem hlen _
        obtain ⟨hrOther, hrUsed, hrHist⟩ := mem_availableFor hrmem
        obtain ⟨ih1, ih2, ih3⟩ := ih _ _ h
        refine ⟨?_, ?_, ?_⟩
        · rw [ih1]; simp
        · intro hnd
          apply ih2
          simp only [List.map_append, List.map_cons, List.map_nil]
          rw [List.nodup_append]
          refine ⟨hnd, List.nodup_singleton _, ?_⟩
          intro a ha hb
          rw [List.mem_singleton] at hb
          subst hb
          exact hrUsed ha
        · intro p hp
          rcases ih3 p hp with hmem | ⟨h1, h2, h3⟩
          · rcases List.mem_append.mp hmem with hacc | hnew
            · exact Or.inl hacc
            · rw [List.mem_singleton] at hnew
              subst hnew
              exact Or.inr ⟨List.mem_cons_self _ _, hrOther, hrHist⟩
          · exact Or.inr ⟨List.mem_cons_of_mem _ h1, h2, h3⟩

theorem assignFamilies_spec {allFams : List Family} {hist : History}
    {stream : Nat → Nat} :
    ∀ (fams : List Family) (acc : Assignment) (k : Nat) {acc' : Assignment}
      {k' : Nat},
      assignFamilies allFams hist stream fams acc k = (true, acc', k') →
      acc'.map Prod.fst = acc.map Prod.fst ++ fams.flatten ∧
      ((acc.map Prod.snd).Nodup → (acc'.map Prod.snd).Nodup) ∧
      ∀ p ∈ acc', p ∈ acc ∨
        ∃ fam ∈ fams, p.1 ∈ fam ∧ p.2 ∈ (allFams.erase fam).flatten ∧
          ∀ prevs, histFind hist p.1 = some prevs → p.2 ∉ prevs := by
  intro fams
  induction fams with
  | nil =>
      intro acc k acc' k' h
      simp only [assignFamilies, Prod.mk.injEq, true_and] at h
      obtain ⟨h1, h2⟩ := h
      subst h1
      exact ⟨by simp, fun hnd => hnd, fun p hp => Or.inl hp⟩
  | cons fam rest ih =>
      intro acc k acc' k' h
      simp only [assignFamilies] at h
      rcases hAM : assignMembers hist stream ((allFams.erase fam).flatten)
          fam acc k with ⟨b, acc1, k1⟩
      rw [hAM] at h
      cases b
      · cases h
      · obtain ⟨am1, am2, am3⟩ := assignMembers_spec fam acc k hAM
        obtain ⟨ih1, ih2, ih3⟩ := ih acc1 k1 h
        refine ⟨?_, ?_, ?_⟩
        · rw [ih1, am1]; simp
        · intro hnd; exact ih2 (am2 hnd)
        · intro p hp
          rcases ih3 p hp with hmem | ⟨fam', hf1, hf2, hf3, hf4⟩
          · rcases am3 p hmem with hacc | ⟨h1, h2, h3⟩
            · exact Or.inl hacc
            · exact Or.inr ⟨fam, List.mem_cons_self _ _, h1, h2, h3⟩
          · exact Or.inr ⟨fam', List.mem_cons_of_mem _ hf1, hf2, hf3, hf4⟩

/-! ### Characterization of the retry loop -/

theorem whileLoop_false {families : List Family} {hist : History}
    {stream : Nat → Nat} :
    ∀ (fuel tries k : Nat) (santa : Assignment) {santa' : Assignment}
      {tries' k' : Nat},
      whileLoop families hist stream fuel tries k santa =
        (false, santa', tries', k') →
      tries' = tries + fuel := by
  intro fuel
  induction fuel with
  | zero =>
      intro tries k santa santa' tries' k' h
      simp only [whileLoop, Prod.mk.injEq] at h
      omega
  | succ n ih =>
      intro tries k santa santa' tries' k' h
      simp only [whileLoop] at h
      rcases hAF : assignFamilies families hist stream families [] k with
        ⟨c, s, k1⟩
      rw [hAF] at h
      by_cases hc : (c && !s.isEmpty) = true
      · rw [if_pos hc] at h
        cases h
      · rw [if_neg hc] at h
        have := ih (tries + 1) k1 s h
        omega

theorem whileLoop_true {families : List Family} {hist : History}
    {stream : Nat → Nat} :
    ∀ (fuel tries k : Nat) (santa : Assignment) {santa' : Assignment}
      {tries' k' : Nat},
      whileLoop families hist stream fuel tries k santa =
        (true, santa', tries', k') →
      santa' ≠ [] ∧ tries < tries' ∧ tries' ≤ tries + fuel ∧
      ∃ k0, assignFamilies families hist stream families [] k0 =
        (true, santa', k') := by
  intro fuel
  induction fuel with
  | zero =>
      intro tries k santa santa' tries' k' h
      simp only [whileLoop, Prod.mk.injEq] at h
      obtain ⟨h1, _⟩ := h
      cases h1
  | succ n ih =>
      intro tries k santa santa' tries' k' h
      simp only [whileLoop] at h
      rcases hAF : assignFamilies families hist stream families [] k with
        ⟨c, s, k1⟩
      rw [hAF] at h
      by_cases hc : (c && !s.isEmpty) = true
      · rw [if_pos hc] at h
        obtain ⟨hcT, hsne⟩ := Bool.and_eq_true_iff.mp hc
        simp only [Prod.mk.injEq, true_and] at h
        obtain ⟨hs, ht, hk⟩ := h
        subst hs; subst ht; subst hk
        refine ⟨?_, by omega, by omega, k, ?_⟩
        · intro he
          rw [he] at hsne
          simp at hsne
        · cases c
          · cases hcT
          · exact hAF
      · rw [if_neg hc] at h
        obtain ⟨h1, h2, h3, h4⟩ := ih (tries + 1) k1 s h
        exact ⟨h1, by omega, by omega, h4⟩

/-- Any assignment returned (not raised) by `randomizeSecretSanta` is the
output of one fully completed attempt, and is non-empty. -/
theorem randomizeSecretSanta_ok {families : List Family} {hist : History}
    {stream : Nat → Nat} {a : Assignment}
    (h : randomizeSecretSanta families hist stream = .ok a) :
    a ≠ [] ∧ ∃ k0 k1,
      assignFamilies families hist stream families [] k0 = (true, a, k1) := by
  rcases hW : whileLoop families hist stream 10 0 0 [] with
    ⟨flag, santa, tries, k⟩
  simp only [randomizeSecretSanta, hW] at h
  by_cases ht : tries = 10
  · rw [if_pos ht] at h
    cases h
  · rw [if_neg ht] at h
    cases flag
    · have := whileLoop_false 10 0 0 [] hW
      omega
    · obtain ⟨hne, _, _, k0, hAF⟩ := whileLoop_true 10 0 0 [] hW
      cases h
      exact ⟨hne, k0, k, hAF⟩

/-! ### Flatten/erase helper lemmas -/

theorem mem_flatten_erase {l : List Family} {fam : Family} {x : Person}
    (hx : x ∈ (l.erase fam).flatten) : x ∈ l.flatten := by
  rw [List.mem_flatten] at hx ⊢
  obtain ⟨f, hf, hxf⟩ := hx
  exact ⟨f, List.erase_subset _ _ hf, hxf⟩

theorem disjoint_of_nodup_flatten {l : List Family} {fam : Family}
    (hnd : l.flatten.Nodup) (hfam : fam ∈ l) {x : Person} (hx : x ∈ fam) :
    x ∉ (l.erase fam).flatten := by
  have hperm0 : l.Perm (fam :: @List.erase _ instBEqOfDecidableEq l fam) :=
    List.perm_cons_erase hfam
  have hinst : (instBEqOfDecidableEq : BEq Family) = List.instBEq :=
    lawful_beq_subsingleton _ _
  rw [hinst] at hperm0
  have hperm : l.flatten.Perm (fam ++ (l.erase fam).flatten) := by
    have := hperm0.flatten
    simpa using this
  have hnd2 : (fam ++ (l.erase fam).flatten).Nodup := hperm.nodup hnd
  obtain ⟨_, _, hdisj⟩ := List.nodup_append.mp hnd2
  intro hmem
  exact hdisj hx hmem

/-! ### Main theorems about returned assignments -/

/-- C2: any returned assignment lists the participants exactly, in input
order, as givers, and its receivers are a permutation of the participants. -/
theorem randomizeSecretSanta_bijection (families : List Family)
    (hist : History) (stream : Nat → Nat) (a : Assignment)
    (hnd : families.flatten.Nodup)
    (hok : randomizeSecretSanta families hist stream = .ok a) :
    a.map Prod.fst = families.flatten ∧
    (a.map Prod.snd).Perm families.flatten ∧
    (∀ x ∈ families.flatten,
      (a.map Prod.fst).count x = 1 ∧ (a.map Prod.snd).count x = 1) ∧
    ∀ x, x ∉ families.flatten →
      (a.map Prod.fst).count x = 0 ∧ (a.map Prod.snd).count x = 0 := by
  obtain ⟨hne, k0, k1, hAF⟩ := randomizeSecretSanta_ok hok
  obtain ⟨h1, h2, h3⟩ := assignFamilies_spec families [] k0 hAF
  simp only [List.map_nil, List.nil_append] at h1
  have hsndnd : (a.map Prod.snd).Nodup := h2 (by simp)
  have hsub : a.map Prod.snd ⊆ families.flatten := by
    intro x hx
    obtain ⟨p, hp, hpx⟩ := List.mem_map.mp hx
    rcases h3 p hp with hmem | ⟨fam, hf1, hf2, hf3, _⟩
    · cases hmem
    · exact hpx ▸ mem_flatten_erase hf3
  have hlen : (a.map Prod.snd).length = families.flatten.length := by
    rw [List.length_map, ← h1, List.length_map]
  have hperm : (a.map Prod.snd).Perm families.flatten :=
    (hsndnd.subperm hsub).perm_of_length_le (le_of_eq hlen.symm)
  refine ⟨h1, hperm, ?_, ?_⟩
  · intro x hxmem
    constructor
    · rw [h1]
      exact List.count_eq_one_of_mem hnd hxmem
    · rw [hperm.count_eq x]
      exact List.count_eq_one_of_mem hnd hxmem
  · intro x hxmem
    constructor
    · rw [h1]
      exact List.count_eq_zero.mpr hxmem
    · rw [hperm.count_eq x]
      exact List.count_eq_zero.mpr hxmem

/-- C3: in any returned assignment, giver and receiver never share a family,
and in particular differ. -/
theorem randomizeSecretSanta_family_exclusion (families : List Family)
    (hist : History) (stream : Nat → Nat) (a : Assignment)
    (hnd : families.flatten.Nodup)
    (hok : randomizeSecretSanta families hist stream = .ok a) :
    ∀ p ∈ a, (∀ fam ∈ families, p.1 ∈ fam → p.2 ∉ fam) ∧ p.1 ≠ p.2 := by
  obtain ⟨_, k0, k1, hAF⟩ := randomizeSecretSanta_ok hok
  obtain ⟨_, _, h3⟩ := assignFamilies_spec families [] k0 hAF
  intro p hp
  rcases h3 p hp with hmem | ⟨fam, hf1, hf2, hf3, _⟩
  · cases hmem
  constructor
  · intro fam' hfam' hp1
    by_cases heq : fam' = fam
    · subst heq
      intro hp2
      exact disjoint_of_nodup_flatten hnd hfam' hp2 hf3
    · exfalso
      have hfam'mem : fam' ∈ families.erase fam :=
        (List.mem_erase_of_ne heq).mpr hfam'
      have hmem' : p.1 ∈ (families.erase fam).flatten :=
        List.mem_flatten.mpr ⟨fam', hfam'mem, hp1⟩
      exact disjoint_of_nodup_flatten hnd hf1 hf2 hmem'
  · intro heq
    have hmem' : p.2 ∈ (families.erase fam).flatten := hf3
    rw [← heq] at hmem'
    exact disjoint_of_nodup_flatten hnd hf1 hf2 hmem'

/-! ### The merged previous-years dict -/

/-- The receivers the dict records for a giver (`[]` when the giver is not a
key). -/
def histReceivers (h : History) (g : Person) : List Person :=
  (histFind h g).getD []

theorem histFind_histAdd_self (h : History) (g r : Person) :
    histFind (histAdd h g r) g = some ((histFind h g).getD [] ++ [r]) := by
  induction h with
  | nil => simp [histAdd, histFind]
  | cons e rest ih =>
      by_cases he : e.1 = g
      · simp [histAdd, he, histFind]
      · simp [histAdd, he, histFind, ih]

theorem histFind_histAdd_other (h : History) {g g' : Person} (r : Person)
    (hne : ¬ g = g') : histFind (histAdd h g r) g' = histFind h g' := by
  induction h with
  | nil => simp [histAdd, histFind, hne]
  | cons e rest ih =>
      simp only [histAdd]
      by_cases he : e.1 = g
      · rw [if_pos he]
        simp only [histFind]
        by_cases he' : e.1 = g'
        · exact absurd (he.symm.trans he') hne
        · rw [if_neg he', if_neg he']
      · rw [if_neg he]
        simp only [histFind]
        by_cases he' : e.1 = g'
        · rw [if_pos he', if_pos he']
        · rw [if_neg he', if_neg he', ih]

theorem histReceivers_histAdd_mono (h : History) (g g' r : Person)
    {x : Person} (hx : x ∈ histReceivers h g) :
    x ∈ histReceivers (histAdd h g' r) g := by
  unfold histReceivers at hx ⊢
  by_cases he : g' = g
  · subst he
    rw [histFind_histAdd_self]
    simp only [Option.getD_some, List.mem_append]
    exact Or.inl hx
  · rw [histFind_histAdd_other h r he]
    exact hx

theorem histReceivers_histAdd_self (h : History) (g r : Person) :
    r ∈ histReceivers (histAdd h g r) g := by
  unfold histReceivers
  rw [histFind_histAdd_self]
  simp

theorem histReceivers_foldl_pairs (pairs : Assignment) :
    ∀ (h : History),
      (∀ {g x : Person}, x ∈ histReceivers h g →
        x ∈ histReceivers
          (pairs.foldl (fun h pair => histAdd h pair.1 pair.2) h) g) ∧
      ∀ q ∈ pairs, q.2 ∈ histReceivers
        (pairs.foldl (fun h pair => histAdd h pair.1 pair.2) h) q.1 := by
  induction pairs with
  | nil =>
      intro h
      exact ⟨fun hx => hx, by simp⟩
  | cons q rest ih =>
      intro h
      simp only [List.foldl_cons]
      obtain ⟨ihmono, ihmem⟩ := ih (histAdd h q.1 q.2)
      refine ⟨fun hx => ihmono (histReceivers_histAdd_mono _ _ _ _ hx), ?_⟩
      intro q' hq'
      rcases List.mem_cons.mp hq' with he | hm
      · subst he
        exact ihmono (histReceivers_histAdd_self h q'.1 q'.2)
      · exact ihmem q' hm

theorem histReceivers_foldl_files (files : List (Option Assignment)) :
    ∀ (h : History),
      (∀ {g x : Person}, x ∈ histReceivers h g →
        x ∈ histReceivers
          (files.foldl
            (fun h file =>
              match file with
              | none => h
              | some secretSantas =>
                  secretSantas.foldl (fun h pair => histAdd h pair.1 pair.2) h)
            h) g) ∧
      ∀ prev, some prev ∈ files → ∀ q ∈ prev,
        q.2 ∈ histReceivers
          (files.foldl
            (fun h file =>
              match file with
              | none => h
              | some secretSantas =>
                  secretSantas.foldl (fun h pair => histAdd h pair.1 pair.2) h)
            h) q.1 := by
  induction files with
  | nil =>
      intro h
      exact ⟨fun hx => hx, by simp⟩
  | cons file rest ih =>
      intro h
      simp only [List.foldl_cons]
      rcases file with _ | prev0
      · obtain ⟨ihmono, ihmem⟩ := ih h
        refine ⟨fun hx => ihmono hx, ?_⟩
        intro prev hprev q hq
        rcases List.mem_cons.mp hprev with he | hm
        · cases he
        · exact ihmem prev hm q hq
      · obtain ⟨ihmono, ihmem⟩ := ih
          (prev0.foldl (fun h pair => histAdd h pair.1 pair.2) h)
        obtain ⟨pmono, pmem⟩ := histReceivers_foldl_pairs prev0 h
        refine ⟨fun hx => ihmono (pmono hx), ?_⟩
        intro prev hprev q hq
        rcases List.mem_cons.mp hprev with he | hm
        · cases he
          exact ihmono (pmem q hq)
        · exact ihmem prev hm q hq

theorem mem_getSecretSantasFromPreviousYears
    {previousSavefiles : List (Option Assignment)} {prev : Assignment}
    (hprev : some prev ∈ previousSavefiles) {q : Person × Person}
    (hq : q ∈ prev) :
    q.2 ∈ histReceivers
      (getSecretSantasFromPreviousYears previousSavefiles) q.1 :=
  (histReceivers_foldl_files previousSavefiles []).2 prev hprev q hq

/-- C4: a returned assignment never pairs a giver with a receiver recorded
for that giver in any supplied previous year. -/
theorem randomizeSecretSanta_history_exclusion (families : List Family)
    (previousSavefiles : List (Option Assignment)) (stream : Nat → Nat)
    (a : Assignment)
    (hok : randomizeSecretSanta families
      (getSecretSantasFromPreviousYears previousSavefiles) stream = .ok a) :
    ∀ p ∈ a, ∀ prev, some prev ∈ previousSavefiles →
      ∀ q ∈ prev, q.1 = p.1 → q.2 ≠ p.2 := by
  obtain ⟨_, k0, k1, hAF⟩ := randomizeSecretSanta_ok hok
  obtain ⟨_, _, h3⟩ := assignFamilies_spec families [] k0 hAF
  intro p hp prev hprev q hq hg he
  rcases h3 p hp with hmem | ⟨fam, _, _, _, hhist⟩
  · cases hmem
  have hq2 : q.2 ∈ histReceivers
      (getSecretSantasFromPreviousYears previousSavefiles) q.1 :=
    mem_getSecretSantasFromPreviousYears hprev hq
  rw [hg] at hq2
  unfold histReceivers at hq2
  rcases hfind : histFind
      (getSecretSantasFromPreviousYears previousSavefiles) p.1 with _ | prevs
  · rw [hfind] at hq2
    simp at hq2
  · rw [hfind] at hq2
    simp only [Option.getD_some] at hq2
    exact hhist prevs hfind (he ▸ hq2)

/-! ### Retry-count and exhaustion behaviour -/

/-- C1: on families `[["A"],["B"],["C"]]` with no history, under the random
choices that dead-end the first nine attempts and let the tenth complete, the
tenth attempt finishes with the success flag set and the complete assignment
A→C, B→A, C→B in hand — yet the function raises the exhaustion exception,
because it raises whenever `tries` reached 10, not whenever no attempt
succeeded. -/
theorem randomizeSecretSanta_raises_despite_completed_attempt :
    whileLoop [["A"], ["B"], ["C"]] [] (fun k => if k = 18 then 1 else 0)
        10 0 0 [] =
      (true, [("A", "C"), ("B", "A"), ("C", "B")], 10, 21) ∧
    ([("A", "C"), ("B", "A"), ("C", "B")] : Assignment).map Prod.fst =
      [["A"], ["B"], ["C"]].flatten ∧
    randomizeSecretSanta [["A"], ["B"], ["C"]] []
      (fun k => if k = 18 then 1 else 0) = .error .maxTriesReached :=
  ⟨rfl, rfl, rfl⟩

/-- C5: for the infeasible single family of two members (no history) every
attempt dead-ends immediately, independently of the random choices, and the
exhaustion exception is raised. -/
theorem randomizeSecretSanta_single_family_exhausts (stream : Nat → Nat) :
    randomizeSecretSanta [["A", "B"]] [] stream = .error .maxTriesReached :=
  rfl

/-- C10: for the empty families list every attempt completes instantly with
no members assigned, so the success flag is never set; after the 10 attempts
the exhaustion exception is raised instead of the empty assignment being
returned. -/
theorem randomizeSecretSanta_empty_families_exhausts (hist : History)
    (stream : Nat → Nat) :
    randomizeSecretSanta [] hist stream = .error .maxTriesReached ∧
    (whileLoop [] hist stream 10 0 0 []).1 = false ∧
    (whileLoop [] hist stream 10 0 0 []).2.2.1 = 10 :=
  ⟨rfl, rfl, rfl⟩

/-- C6: the retry loop performs at most 10 attempts and the function is total:
it either returns an assignment or raises the exhaustion exception. -/
theorem randomizeSecretSanta_terminates (families : List Family)
    (hist : History) (stream : Nat → Nat) :
    (whileLoop families hist stream 10 0 0 []).2.2.1 ≤ 10 ∧
    ((∃ a, randomizeSecretSanta families hist stream = .ok a) ∨
      randomizeSecretSanta families hist stream = .error .maxTriesReached) := by
  rcases hW : whileLoop families hist stream 10 0 0 [] with
    ⟨flag, santa, tries, k⟩
  have htries : tries ≤ 10 := by
    cases flag
    · have := whileLoop_false 10 0 0 [] hW
      omega
    · obtain ⟨_, _, h, _⟩ := whileLoop_true 10 0 0 [] hW
      omega
  constructor
  · exact htries
  · simp only [randomizeSecretSanta, hW]
    by_cases ht : tries = 10
    · rw [if_pos ht]
      exact Or.inr rfl
    · rw [if_neg ht]
      exact Or.inl ⟨santa, rfl⟩

/-! ### The frame property of the state-threaded translation -/

theorem assignMembersSt_state (stream : Nat → Nat) (oF : List Person)
    (st : PyState) :
    ∀ (mems : List Person) (s : Assignment) (k : Nat),
      (assignMembersSt stream oF st mems s k).1 = st := by
  intro mems
  induction mems with
  | nil => intro s k; rfl
  | cons m rest ih =>
      intro s k
      simp only [assignMembersSt]
      by_cases hlen :
          (availableFor st.previousSecretSanta oF (s.map Prod.snd) m).length
            = 0
      · rw [if_pos hlen]
      · rw [if_neg hlen]
        exact ih _ _

theorem assignFamiliesSt_state (stream : Nat → Nat) :
    ∀ (fams : List Family) (st : PyState) (s : Assignment) (k : Nat),
      (assignFamiliesSt stream st fams s k).1 = st := by
  intro fams
  induction fams with
  | nil => intro st s k; rfl
  | cons fam rest ih =>
      intro st s k
      simp only [assignFamiliesSt]
      rcases hAM : assignMembersSt stream ((st.families.erase fam).flatten)
          st fam s k with ⟨st1, b, s1, k1⟩
      have hst1 : st1 = st := by
        have h := assignMembersSt_state stream
          ((st.families.erase fam).flatten) st fam s k
        rw [hAM] at h
        exact h
      cases b
      · exact hst1
      · exact (ih st1 s1 k1).trans hst1

theorem whileLoopSt_state (stream : Nat → Nat) :
    ∀ (fuel : Nat) (st : PyState) (tries k : Nat) (s : Assignment),
      (whileLoopSt stream st fuel tries k s).1 = st := by
  intro fuel
  induction fuel with
  | zero => intro st tries k s; rfl
  | succ n ih =>
      intro st tries k s
      simp only [whileLoopSt]
      rcases hAF : assignFamiliesSt stream st st.families [] k with
        ⟨st1, c, s1, k1⟩
      have hst1 : st1 = st := by
        have h := assignFamiliesSt_state stream st.families st [] k
        rw [hAF] at h
        exact h
      show (if (c && !s1.isEmpty) = true then (st1, true, s1, tries + 1, k1)
        else whileLoopSt stream st1 n (tries + 1) k1 s1).1 = st
      by_cases hc : (c && !s1.isEmpty) = true
      · rw [if_pos hc]
        exact hst1
      · rw [if_neg hc]
        exact (ih st1 (tries + 1) k1 s1).trans hst1

/-- C9: the function never mutates its inputs — the heap state holding the
families and the previous-years dict is returned unchanged, whether the call
returns an assignment or raises. -/
theorem randomizeSecretSantaSt_frame (st : PyState) (stream : Nat → Nat) :
    (randomizeSecretSantaSt st stream).1 = st := by
  rcases hW : whileLoopSt stream st 10 0 0 [] with ⟨st1, flag, s, tries, k⟩
  have hst1 : st1 = st := by
    have h := whileLoopSt_state stream 10 st 0 0 []
    rw [hW] at h
    exact h
  simp only [randomizeSecretSantaSt, hW]
  exact hst1

/-! ### Witnesses for the hypothesis-bearing theorems -/

/-- Witness for the bijection theorem at a concrete successful run. -/
theorem randomizeSecretSanta_bijection_witness :
    ([("A", "C"), ("B", "A"), ("C", "B")] : Assignment).map Prod.fst =
        [["A"], ["B"], ["C"]].flatten ∧
    (([("A", "C"), ("B", "A"), ("C", "B")] : Assignment).map
        Prod.snd).Perm [["A"], ["B"], ["C"]].flatten ∧
    (∀ x ∈ [["A"], ["B"], ["C"]].flatten,
      (([("A", "C"), ("B", "A"), ("C", "B")] : Assignment).map
          Prod.fst).count x = 1 ∧
      (([("A", "C"), ("B", "A"), ("C", "B")] : Assignment).map
          Prod.snd).count x = 1) ∧
    ∀ x, x ∉ [["A"], ["B"], ["C"]].flatten →
      (([("A", "C"), ("B", "A"), ("C", "B")] : Assignment).map
          Prod.fst).count x = 0 ∧
      (([("A", "C"), ("B", "A"), ("C", "B")] : Assignment).map
          Prod.snd).count x = 0 :=
  randomizeSecretSanta_bijection [["A"], ["B"], ["C"]] []
    (fun k => if k = 0 then 1 else 0) [("A", "C"), ("B", "A"), ("C", "B")]
    (by decide) (by rfl)

/-- Witness for the family-exclusion theorem at a concrete successful run,
instantiated at the returned pair (A, C) and A's family. -/
theorem randomizeSecretSanta_family_exclusion_witness :
    (("C" : Person) ∉ (["A"] : Family)) ∧ ("A" : Person) ≠ "C" :=
  let h := randomizeSecretSanta_family_exclusion [["A"], ["B"], ["C"]] []
    (fun k => if k = 0 then 1 else 0) [("A", "C"), ("B", "A"), ("C", "B")]
    (by decide) (by rfl) ("A", "C") (by decide)
  ⟨h.1 ["A"] (by decide) (by decide), h.2⟩

/-- Witness for the history-exclusion theorem at a concrete successful run
with one supplied previous year, instantiated at the returned pair (A, B) and
the prior-year pair (A, C): the new receiver B differs from the prior
receiver C. -/
theorem randomizeSecretSanta_history_exclusion_witness :
    ("C" : Person) ≠ "B" :=
  randomizeSecretSanta_history_exclusion [["A"], ["B"], ["C"]]
    [some [("A", "C")]] (fun k => if k = 1 then 1 else 0)
    [("A", "B"), ("B", "C"), ("C", "A")] (by rfl)
    ("A", "B") (by decide) [("A", "C")] (by decide) ("A", "C") (by decide)
    rfl

/-! ### The Verifier's reporting behaviour -/

/-- C7: the verified assignment `[A→C, C→A]` exactly repeats the supplied
year-2 assignment, yet both prior-year test methods pass and the whole
verifier reports success: the year-1 file is absent so the single-year test
is skipped, and the four-year test compares the giver — not the receiver —
against the giver's merged previous receivers. -/
theorem verifier_passes_on_prior_year_repeat :
    test_not_same_receiver_as_any_of_four_previous_year
        [("A", "C"), ("C", "A")]
        [none, some [("A", "C"), ("C", "A")], none, none] = none ∧
    test_not_same_receiver_as_previous_year [("A", "C"), ("C", "A")] none =
      none ∧
    (runUnitTestOnSavedFile [("A", "C"), ("C", "A")] [["A"], ["C"]]
        [none, some [("A", "C"), ("C", "A")], none, none]).1 = true ∧
    ("A", "C") ∈ ([("A", "C"), ("C", "A")] : Assignment) ∧
    some [("A", "C"), ("C", "A")] ∈
      ([none, some [("A", "C"), ("C", "A")], none, none] :
        List (Option Assignment)) :=
  ⟨rfl, rfl, rfl, by decide, by decide⟩

/-- C8 counterexample: the assignment `[A→A, B→B]` violates the
no-self-assignment invariant at two pairs, but the verifier's failure list
mentions only the first pair — no recorded failure names `(B, B)`. -/
theorem runUnitTest_reports_only_first_violating_pair :
    (("B", "B") ∈ ([("A", "A"), ("B", "B")] : Assignment) ∧
      (("B", "B") : Person × Person).1 = (("B", "B") : Person × Person).2) ∧
    ∀ f ∈ (runUnitTestOnSavedFile [("A", "A"), ("B", "B")] [["A"], ["B"]]
        [none, none, none, none]).2,
      f.2 ≠ TestFailure.badPair ("B", "B") := by
  decide

theorem mem_failures_map_fst_iff
    (results : List (String × Option TestFailure)) (name : String) :
    name ∈ (results.filterMap
        (fun r => r.2.map (fun v => (r.1, v)))).map Prod.fst ↔
      ∃ r ∈ results, r.1 = name ∧ r.2.isSome = true := by
  induction results with
  | nil => simp
  | cons r rest ih =>
      rcases hr : r.2 with _ | v
      · rw [List.filterMap_cons]
        simp only [hr, Option.map_none']
        rw [ih]
        constructor
        · rintro ⟨r', hr', h1, h2⟩
          exact ⟨r', List.mem_cons_of_mem _ hr', h1, h2⟩
        · rintro ⟨r', hr', h1, h2⟩
          rcases List.mem_cons.mp hr' with he | hm
          · subst he
            rw [hr] at h2
            cases h2
          · exact ⟨r', hm, h1, h2⟩
      · rw [List.filterMap_cons]
        simp only [hr, Option.map_some', List.map_cons]
        constructor
        · intro hmem
          rcases List.mem_cons.mp hmem with he | hm
          · exact ⟨r, List.mem_cons_self _ _, he.symm, by rw [hr]; rfl⟩
          · obtain ⟨r', hr', h1, h2⟩ := ih.mp hm
            exact ⟨r', List.mem_cons_of_mem _ hr', h1, h2⟩
        · rintro ⟨r', hr', h1, h2⟩
          rcases List.mem_cons.mp hr' with he | hm
          · subst he
            exact List.mem_cons.mpr (Or.inl h1.symm)
          · exact List.mem_cons.mpr (Or.inr (ih.mpr ⟨r', hm, h1, h2⟩))

theorem test_different_isSome_iff (santa : Assignment) :
    (test_secretSanta_and_receiver_different santa).isSome = true ↔
      ∃ p ∈ santa, p.1 = p.2 := by
  unfold test_secretSanta_and_receiver_different
  rw [Option.isSome_map', List.find?_isSome]
  simp

theorem test_not_family_isSome_iff (santa : Assignment)
    (families : List Family) :
    (test_secretSanta_and_receiver_not_family santa families).isSome =
        true ↔
      ∃ p ∈ santa, ∃ fam,
        families.find? (fun f => f.contains p.1) = some fam ∧ p.2 ∈ fam := by
  unfold test_secretSanta_and_receiver_not_family
  rw [Option.isSome_map', List.find?_isSome]
  constructor
  · rintro ⟨p, hp, hpred⟩
    rcases hfind : families.find? (fun f => f.contains p.1) with _ | fam
    · rw [hfind] at hpred
      cases hpred
    · rw [hfind] at hpred
      exact ⟨p, hp, fam, hfind, by simpa using hpred⟩
  · rintro ⟨p, hp, fam, hfind, hmem⟩
    refine ⟨p, hp, ?_⟩
    rw [hfind]
    simpa using hmem

theorem test_all_names_isSome_iff (santa : Assignment)
    (families : List Family) :
    (test_all_names_in_list santa families).isSome = true ↔
      ¬ (families.flatten.length = (santa.map Prod.fst).length ∧
         families.flatten.length = (santa.map Prod.snd).length ∧
         families.flatten.length =
           (families.flatten ++ santa.map Prod.fst).dedup.length ∧
         families.flatten.length =
           (families.flatten ++ santa.map Prod.snd).dedup.length) := by
  unfold test_all_names_in_list
  dsimp only
  split_ifs <;> simp_all

theorem test_no_duplicates_isSome_iff (santa : Assignment)
    (families : List Family) :
    (test_no_duplicates santa families).isSome = true ↔
      ¬ (families.flatten.length = (santa.map Prod.fst).dedup.length ∧
         families.flatten.length = (santa.map Prod.snd).dedup.length) := by
  unfold test_no_duplicates
  dsimp only
  split_ifs <;> simp_all

theorem test_prev_year_isSome_iff (santa : Assignment)
    (previousFile : Option Assignment) :
    (test_not_same_receiver_as_previous_year santa previousFile).isSome =
        true ↔
      ∃ prev, previousFile = some prev ∧ ∃ p ∈ santa, ∃ q,
        prev.find? (fun pr => pr.1 == p.1) = some q ∧ q.2 = p.2 := by
  rcases previousFile with _ | prev
  · simp [test_not_same_receiver_as_previous_year]
  · unfold test_not_same_receiver_as_previous_year
    rw [Option.isSome_map', List.find?_isSome]
    constructor
    · rintro ⟨p, hp, hpred⟩
      rcases hfind : prev.find? (fun pr => pr.1 == p.1) with _ | q
      · rw [hfind] at hpred
        cases hpred
      · rw [hfind] at hpred
        exact ⟨prev, rfl, p, hp, q, hfind, by simpa using hpred⟩
    · rintro ⟨prev', hprev', p, hp, q, hfind, hq⟩
      cases hprev'
      refine ⟨p, hp, ?_⟩
      rw [hfind]
      simpa using hq

theorem test_four_years_isSome_iff (santa : Assignment)
    (previousFiles : List (Option Assignment)) :
    (test_not_same_receiver_as_any_of_four_previous_year santa
        previousFiles).isSome = true ↔
      ∃ p ∈ santa, ∃ rs,
        histFind (getSecretSantasFromPreviousYears previousFiles) p.1 =
          some rs ∧ p.1 ∈ rs := by
  unfold test_not_same_receiver_as_any_of_four_previous_year
  rw [Option.isSome_map', List.find?_isSome]
  constructor
  · rintro ⟨p, hp, hpred⟩
    rcases hfind : histFind (getSecretSantasFromPreviousYears previousFiles)
        p.1 with _ | rs
    · rw [hfind] at hpred
      cases hpred
    · rw [hfind] at hpred
      exact ⟨p, hp, rs, hfind, by simpa using hpred⟩
  · rintro ⟨p, hp, rs, hfind, hmem⟩
    refine ⟨p, hp, ?_⟩
    rw [hfind]
    simpa using hmem

theorem runUnitTest_failures_name (santa : Assignment)
    (families : List Family) (previousFiles : List (Option Assignment))
    (name : String) :
    name ∈ ((runUnitTestOnSavedFile santa families previousFiles).2.map
        Prod.fst) ↔
      ∃ r ∈ [("test_all_names_in_list",
               test_all_names_in_list santa families),
             ("test_no_duplicates", test_no_duplicates santa families),
             ("test_not_same_receiver_as_any_of_four_previous_year",
               test_not_same_receiver_as_any_of_four_previous_year santa
                 previousFiles),
             ("test_not_same_receiver_as_previous_year",
               test_not_same_receiver_as_previous_year santa
                 (previousFiles.getD 0 none)),
             ("test_secretSanta_and_receiver_different",
               test_secretSanta_and_receiver_different santa),
             ("test_secretSanta_and_receiver_not_family",
               test_secretSanta_and_receiver_not_family santa families)],
        r.1 = name ∧ r.2.isSome = true :=
  mem_failures_map_fst_iff _ name

/-- C8 (amended): the Verifier runs the six test methods independently, and
its failure list names every violated invariant: each method's name appears
among the reported failures exactly when that method's check finds a
violation, and the run is reported successful exactly when the failure list
is empty.  (Within one method only the first violating assertion is
recorded.) -/
theorem runUnitTest_reports_every_violated_invariant (santa : Assignment)
    (families : List Family) (previousFiles : List (Option Assignment)) :
    ("test_all_names_in_list" ∈
        ((runUnitTestOnSavedFile santa families previousFiles).2.map
          Prod.fst) ↔
      ¬ (families.flatten.length = (santa.map Prod.fst).length ∧
         families.flatten.length = (santa.map Prod.snd).length ∧
         families.flatten.length =
           (families.flatten ++ santa.map Prod.fst).dedup.length ∧
         families.flatten.length =
           (families.flatten ++ santa.map Prod.snd).dedup.length)) ∧
    ("test_no_duplicates" ∈
        ((runUnitTestOnSavedFile santa families previousFiles).2.map
          Prod.fst) ↔
      ¬ (families.flatten.length = (santa.map Prod.fst).dedup.length ∧
         families.flatten.length = (santa.map Prod.snd).dedup.length)) ∧
    ("test_secretSanta_and_receiver_different" ∈
        ((runUnitTestOnSavedFile santa families previousFiles).2.map
          Prod.fst) ↔
      ∃ p ∈ santa, p.1 = p.2) ∧
    ("test_secretSanta_and_receiver_not_family" ∈
        ((runUnitTestOnSavedFile santa families previousFiles).2.map
          Prod.fst) ↔
      ∃ p ∈ santa, ∃ fam,
        families.find? (fun f => f.contains p.1) = some fam ∧ p.2 ∈ fam) ∧
    ("test_not_same_receiver_as_previous_year" ∈
        ((runUnitTestOnSavedFile santa families previousFiles).2.map
          Prod.fst) ↔
      ∃ prev, previousFiles.getD 0 none = some prev ∧ ∃ p ∈ santa, ∃ q,
        prev.find? (fun pr => pr.1 == p.1) = some q ∧ q.2 = p.2) ∧
    ("test_not_same_receiver_as_any_of_four_previous_year" ∈
        ((runUnitTestOnSavedFile santa families previousFiles).2.map
          Prod.fst) ↔
      ∃ p ∈ santa, ∃ rs,
        histFind (getSecretSantasFromPreviousYears previousFiles) p.1 =
          some rs ∧ p.1 ∈ rs) ∧
    ((runUnitTestOnSavedFile santa families previousFiles).1 = true ↔
      (runUnitTestOnSavedFile santa families previousFiles).2 = []) := by
  refine ⟨?_, ?_, ?_, ?_, ?_, ?_, List.isEmpty_iff⟩
  · rw [runUnitTest_failures_name, ← test_all_names_isSome_iff]
    simp
  · rw [runUnitTest_failures_name, ← test_no_duplicates_isSome_iff]
    simp
  · rw [runUnitTest_failures_name, ← test_different_isSome_iff]
    simp
  · rw [runUnitTest_failures_name, ← test_not_family_isSome_iff]
    simp
  · rw [runUnitTest_failures_name, ← test_prev_year_isSome_iff]
    simp
  · rw [runUnitTest_failures_name, ← test_four_years_isSome_iff]
    simp

end SecretSanta
